import Mathlib

/-!
Verification of the quote-analytics logic of the economic dashboard
script.  Shallow embedding of the pure computations of the script:
the per-symbol snapshot arithmetic of get_stock_data, the index
arithmetic of get_economic_indicators, the comparison-chart
normalization, the market-status heuristic of get_market_status, the
volume statistics and volatility of the summary tables, and the
search_stocks lookup loop.

Prices and volumes are modelled as rationals, since the claims under
scrutiny are about the exact arithmetic structure, not float rounding.
Timestamps are modelled as integers, day numbers, which is all the
script inspects: date differences in whole days, and the raw index
value carried into last_update.
-/

set_option autoImplicit false

namespace EconDash

/-- One row of the pandas history frame: timestamp index, Close and
Volume columns, the only columns the verified computations read. -/
structure Bar where
  ts : Int
  close : ℚ
  volume : ℚ
  deriving DecidableEq, Repr

/-- The close of the last bar with the zero fallback the script itself
uses on an empty frame, line 313. -/
def lastCloseD (bars : List Bar) : ℚ :=
  ((bars.getLast?).map Bar.close).getD 0

/-- The close of the second-to-last bar, read by the script only under
a two-or-more-bars guard, so the zero fallback is unused there. -/
def prevCloseD (bars : List Bar) : ℚ :=
  ((bars.reverse.get? 1).map Bar.close).getD 0

/-- The timestamp of the last bar, defaulting to the computation time
on an empty frame, line 323. -/
def lastUpdateOf (bars : List Bar) (now : Int) : Int :=
  ((bars.getLast?).map Bar.ts).getD now

/-- The per-symbol derived metrics stored by get_stock_data:
current_price, change, change_pct, last_update. -/
structure Snapshot where
  currentPrice : ℚ
  change : ℚ
  changePct : ℚ
  lastUpdate : Int
  deriving DecidableEq, Repr

/-- The snapshot arithmetic of get_stock_data, lines 307 to 324: with
two or more bars the change is the difference of the last two closes
and the percent change divides by the previous close, guarded against
zero; otherwise both change fields are zero and the current price
falls back to zero on an empty frame. -/
def computeSnapshot (bars : List Bar) (now : Int) : Snapshot :=
  if 2 ≤ bars.length then
    let current := lastCloseD bars
    let previous := prevCloseD bars
    let change := current - previous
    { currentPrice := current
      change := change
      changePct := if previous ≠ 0 then change / previous * 100 else 0
      lastUpdate := lastUpdateOf bars now }
  else
    { currentPrice := lastCloseD bars
      change := 0
      changePct := 0
      lastUpdate := lastUpdateOf bars now }

/-- Outcome of the history fetch for one symbol: either the call
raised, caught by the per-symbol except clause, or it returned a
frame. -/
inductive FetchOutcome where
  | failure (msg : String)
  | history (bars : List Bar)
  deriving DecidableEq, Repr

/-- Holds exactly when the symbol reaches the snapshot computation:
the fetch succeeded and the frame is non-empty. -/
def FetchOutcome.ok : FetchOutcome → Bool
  | .failure _ => false
  | .history bars => !bars.isEmpty

/-- The bars carried by a successful fetch, empty for a failure. -/
def FetchOutcome.bars : FetchOutcome → List Bar
  | .failure _ => []
  | .history bars => bars

/-- The error string get_stock_data appends for a symbol that does not
reach the snapshot computation. -/
def errorLine (s : String) : FetchOutcome → String
  | .failure msg => s ++ ": " ++ msg
  | .history _ => s ++ ": No historical data available"

/-- The per-symbol loop of get_stock_data, lines 282 to 330: a raised
fetch appends its message and continues; an empty frame appends the
no-data line and continues; otherwise the snapshot is stored under the
symbol.  Returns the pair of data and errors. -/
def getStockData (fetch : String → FetchOutcome) (symbols : List String)
    (now : Int) : List (String × Snapshot) × List String :=
  match symbols with
  | [] => ([], [])
  | s :: rest =>
    let r := getStockData fetch rest now
    match fetch s with
    | .failure msg => (r.1, (s ++ ": " ++ msg) :: r.2)
    | .history bars =>
      if bars.isEmpty then
        (r.1, (s ++ ": No historical data available") :: r.2)
      else
        ((s, computeSnapshot bars now) :: r.1, r.2)

/-- The comparison-chart normalization, tab2, lines 480 to 496: an
empty frame adds no trace; a series whose first close is zero adds no
trace; otherwise the trace pairs each timestamp with the close divided
by the first close, minus one, times 100. -/
def normalizeForComparison (bars : List Bar) : List (Int × ℚ) :=
  match bars with
  | [] => []
  | b0 :: rest =>
    if b0.close = 0 then []
    else (b0 :: rest).map fun b => (b.ts, (b.close / b0.close - 1) * 100)

/-- The five outcomes of get_market_status, lines 219 to 249: the four
returned strings plus the except fallback. -/
inductive MarketStatus where
  | Open
  | ClosedRecent
  | ClosedStale
  | NoData
  | Unknown
  deriving DecidableEq, Repr

/-- The classifier get_market_status on the dates of the probe series;
none models the except branch where the fetch raised.  With at least
two bars it compares the date of the last bar with the current date;
otherwise it reports no data.  Dates are day numbers, so the day gap
is plain integer subtraction. -/
def get_market_status (probe : Option (List Int)) (today : Int) : MarketStatus :=
  match probe with
  | none => MarketStatus.Unknown
  | some dates =>
    if 2 ≤ dates.length then
      if dates.getLast?.getD 0 = today then MarketStatus.Open
      else if today - dates.getLast?.getD 0 ≤ 3 then MarketStatus.ClosedRecent
      else MarketStatus.ClosedStale
    else MarketStatus.NoData

/-- The per-index record stored by get_economic_indicators: value,
change, change_pct, last_update. -/
structure IndexSnapshot where
  value : ℚ
  change : ℚ
  changePct : ℚ
  lastUpdate : Int
  deriving DecidableEq, Repr

/-- The index arithmetic of get_economic_indicators, lines 344 to 371:
with two or more bars the same change formulas as the stock snapshot;
with exactly one bar, zero change fields; with no bars, no indicator
is produced and only an error line is appended. -/
def computeIndexSnapshot (bars : List Bar) : Option IndexSnapshot :=
  if 2 ≤ bars.length then
    some { value := lastCloseD bars
           change := lastCloseD bars - prevCloseD bars
           changePct := if prevCloseD bars ≠ 0 then
               (lastCloseD bars - prevCloseD bars) / prevCloseD bars * 100
             else 0
           lastUpdate := ((bars.getLast?).map Bar.ts).getD 0 }
  else if bars.length = 1 then
    some { value := lastCloseD bars
           change := 0
           changePct := 0
           lastUpdate := ((bars.getLast?).map Bar.ts).getD 0 }
  else none

/-- The pct_change of the Close column without its leading NaN, which
the std call skips anyway: the day-over-day returns, each close
divided by its predecessor, minus one, over consecutive pairs. -/
def pctChange (closes : List ℚ) : List ℚ :=
  (closes.zip closes.tail).map fun p => p.2 / p.1 - 1

/-- The pandas series mean: sum over count. -/
def listMean (xs : List ℚ) : ℚ := xs.sum / (xs.length : ℚ)

/-- The sample variance with one delta degree of freedom: the sum of
squared deviations from the mean, divided by count minus one. -/
def sampleVar (xs : List ℚ) : ℚ :=
  (xs.map fun x => (x - listMean xs) ^ 2).sum / ((xs.length : ℚ) - 1)

/-- The pandas series std with its default of one delta degree of
freedom: the square root of the sample variance when at least two
values are present, and NaN, modelled as none, otherwise. -/
noncomputable def seriesStd (xs : List ℚ) : Option ℝ :=
  if 2 ≤ xs.length then some (Real.sqrt ((sampleVar xs : ℚ) : ℝ)) else none

/-- The Volatility column of the summary table, line 560: the std of
the pct_change of the closes. -/
noncomputable def volatility (bars : List Bar) : Option ℝ :=
  seriesStd (pctChange (bars.map Bar.close))

/-- Modelled from the spec: volatility is the sample standard
deviation of day-over-day percent returns, defined as zero when fewer
than two returns exist.  Used only to compare the words of the spec
with the code. -/
noncomputable def specVolatility (bars : List Bar) : ℝ :=
  if (pctChange (bars.map Bar.close)).length < 2 then 0
  else Real.sqrt ((sampleVar (pctChange (bars.map Bar.close)) : ℚ) : ℝ)

/-- The tail of thirty entries of the Volume column: the last
min(30, len) entries. -/
def tail30 (xs : List ℚ) : List ℚ := xs.drop (xs.length - 30)

/-- The thirty-day average volume, line 517: the mean of the tail of
thirty volumes. -/
def avgVolume30 (bars : List Bar) : ℚ := listMean (tail30 (bars.map Bar.volume))

/-- The most recent volume, line 518: the volume of the last bar. -/
def latestVolume (bars : List Bar) : ℚ :=
  ((bars.getLast?).map Bar.volume).getD 0

/-- The volume ratio, line 524: recent over average when the average
is positive, zero otherwise. -/
def volumeRatioOf (bars : List Bar) : ℚ :=
  if 0 < avgVolume30 bars then latestVolume bars / avgVolume30 bars else 0

/-- The info dictionary of a ticker as the search loop sees it: the
fields the loop reads are all strings. -/
structure TickerInfo where
  entries : List (String × String)
  deriving DecidableEq, Repr

/-- Python dictionary lookup on the modelled info dictionary. -/
def dictGet (d : List (String × String)) (key : String) : Option String :=
  (d.find? fun p => p.1 == key).map Prod.snd

/-- The long name with its fallback chain, line 115: longName, then
shortName, then the raw symbol. -/
def longNameOf (info : TickerInfo) (symbol : String) : String :=
  (dictGet info.entries ("longName")).getD
    ((dictGet info.entries ("shortName")).getD symbol)

/-- One entry of search_results, lines 117 to 122. -/
structure SearchResult where
  symbol : String
  name : String
  sector : String
  currency : String
  deriving DecidableEq, Repr

/-- One iteration of the loop over test symbols, lines 107 to 126:
none when the info fetch raised or when the validity checks fail,
namely a dictionary of more than three entries and a truthy long name
different from the symbol; otherwise the appended result. -/
def validResult (fetchInfo : String → Option TickerInfo) (symbol : String) :
    Option SearchResult :=
  match fetchInfo symbol with
  | none => none
  | some info =>
    if 3 < info.entries.length then
      if longNameOf info symbol ≠ "" ∧ longNameOf info symbol ≠ symbol then
        some { symbol := symbol
               name := longNameOf info symbol
               sector := (dictGet info.entries ("sector")).getD ("N/A")
               currency := (dictGet info.entries ("currency")).getD ("N/A") }
      else none
    else none

/-- The loop with its break statement: the first valid variant alone
is collected; trying continues past invalid variants. -/
def firstValid (fetchInfo : String → Option TickerInfo) :
    List String → List SearchResult
  | [] => []
  | s :: rest =>
    match validResult fetchInfo s with
    | some r => [r]
    | none => firstValid fetchInfo rest

/-- The exchange-dependent symbol variants tried for a query, lines 93
to 105, built from the upper-cased and stripped query. -/
def testSymbols (query exchange : String) : List String :=
  if exchange = "🇮🇱 Israel (TASE)" then
    [query.toUpper.trim, query.toUpper.trim ++ ".TA"]
  else if exchange = "🇪🇺 Europe" then
    [query.toUpper.trim, query.toUpper.trim ++ ".AS",
      query.toUpper.trim ++ ".DE", query.toUpper.trim ++ ".PA"]
  else if exchange = "🇯🇵 Japan" then
    [query.toUpper.trim, query.toUpper.trim ++ ".T"]
  else [query.toUpper.trim]

/-- The search function, lines 82 to 131: empty or one-character
queries return the empty list; otherwise the collected loop results,
sliced to at most five. -/
def search_stocks (fetchInfo : String → Option TickerInfo)
    (query exchange : String) : List SearchResult :=
  if query.length < 2 then []
  else (firstValid fetchInfo (testSymbols query exchange)).take 5

/-! Helper lemmas. -/

theorem lastCloseD_concat (l : List Bar) (b : Bar) :
    lastCloseD (l ++ [b]) = b.close := by
  simp [lastCloseD]

theorem prevCloseD_concat2 (l : List Bar) (b1 b2 : Bar) :
    prevCloseD (l ++ [b1, b2]) = b1.close := by
  have h : (l ++ [b1, b2]).reverse = b2 :: b1 :: l.reverse := by
    simp
  simp [prevCloseD, h]

theorem lastUpdateOf_concat (l : List Bar) (b : Bar) (now : Int) :
    lastUpdateOf (l ++ [b]) now = b.ts := by
  simp [lastUpdateOf]

theorem getStockData_fst (fetch : String → FetchOutcome)
    (symbols : List String) (now : Int) :
    (getStockData fetch symbols now).1 =
      (symbols.filter fun s => (fetch s).ok).map
        fun s => (s, computeSnapshot (fetch s).bars now) := by
  induction symbols with
  | nil => rfl
  | cons s rest ih =>
    cases h : fetch s with
    | failure msg =>
      simp [getStockData, h, List.filter, FetchOutcome.ok, ih]
    | history bars =>
      by_cases hb : bars.isEmpty
      · simp [getStockData, h, hb, List.filter, FetchOutcome.ok, ih]
      · simp [getStockData, h, hb, List.filter, FetchOutcome.ok,
          FetchOutcome.bars, ih]

theorem getStockData_snd (fetch : String → FetchOutcome)
    (symbols : List String) (now : Int) :
    (getStockData fetch symbols now).2 =
      (symbols.filter fun s => !(fetch s).ok).map
        fun s => errorLine s (fetch s) := by
  induction symbols with
  | nil => rfl
  | cons s rest ih =>
    cases h : fetch s with
    | failure msg =>
      simp [getStockData, h, List.filter, FetchOutcome.ok, errorLine, ih]
    | history bars =>
      by_cases hb : bars.isEmpty
      · simp [getStockData, h, hb, List.filter, FetchOutcome.ok,
          errorLine, ih]
      · simp [getStockData, h, hb, List.filter, FetchOutcome.ok, ih]

theorem pctChange_cons (c1 c2 : ℚ) (cs : List ℚ) :
    pctChange (c1 :: c2 :: cs) = (c2 / c1 - 1) :: pctChange (c2 :: cs) := by
  simp [pctChange]

theorem pctChange_get (closes : List ℚ) (i : Nat) (hi : i + 1 < closes.length) :
    (pctChange closes).get? i =
      some (closes.getD (i + 1) 0 / closes.getD i 0 - 1) := by
  induction closes generalizing i with
  | nil => simp at hi
  | cons c1 cs ih =>
    cases cs with
    | nil =>
      simp only [List.length_cons, List.length_nil] at hi
      omega
    | cons c2 cs2 =>
      rw [pctChange_cons]
      cases i with
      | zero => rfl
      | succ k =>
        have hk : k + 1 < (c2 :: cs2).length := by
          simp only [List.length_cons] at hi ⊢
          omega
        rw [List.get?_cons_succ, ih k hk]
        rfl

theorem tail30_length (xs : List ℚ) :
    (tail30 xs).length = min 30 xs.length := by
  simp only [tail30, List.length_drop]
  omega

theorem tail30_sum (xs : List ℚ) :
    (xs.reverse.take 30).sum = (tail30 xs).sum := by
  rcases le_or_lt xs.length 30 with h | h
  · have h0 : xs.length - 30 = 0 := by omega
    rw [tail30, h0, List.drop_zero,
      List.take_of_length_le (by simpa using h), List.sum_reverse]
  · have hsplit : xs.reverse =
        (xs.drop (xs.length - 30)).reverse ++ (xs.take (xs.length - 30)).reverse := by
      rw [← List.reverse_append, List.take_append_drop]
    have hlen : ((xs.drop (xs.length - 30)).reverse).length = 30 := by
      simp only [List.length_reverse, List.length_drop]
      omega
    rw [hsplit, List.take_left' hlen, List.sum_reverse, tail30]

theorem firstValid_length_le_one (fetchInfo : String → Option TickerInfo)
    (syms : List String) : (firstValid fetchInfo syms).length ≤ 1 := by
  induction syms with
  | nil => simp [firstValid]
  | cons s rest ih =>
    cases hv : validResult fetchInfo s <;> simp [firstValid, hv, ih]

/-! Claim theorems. -/

/-- Claim C1.  For a series with at least two bars the snapshot has
the close of the last bar as current price, the difference of the last
two closes as change, and the percent change divides by the previous
close times 100 when that close is nonzero and is zero when it is
zero; for a single-bar series the current price is the close of the
bar and both change fields are zero. -/
theorem C1_snapshot_arithmetic (l : List Bar) (b1 b2 b : Bar) (now : Int) :
    computeSnapshot (l ++ [b1, b2]) now =
      { currentPrice := b2.close
        change := b2.close - b1.close
        changePct := if b1.close = 0 then 0
          else (b2.close - b1.close) / b1.close * 100
        lastUpdate := b2.ts } ∧
    computeSnapshot [b] now =
      { currentPrice := b.close
        change := 0
        changePct := 0
        lastUpdate := b.ts } := by
  constructor
  · have hlen : 2 ≤ (l ++ [b1, b2]).length := by
      simp [List.length_append]
    have hconcat : l ++ [b1, b2] = (l ++ [b1]) ++ [b2] := by simp
    rw [computeSnapshot, if_pos hlen]
    have hc : lastCloseD (l ++ [b1, b2]) = b2.close := by
      rw [hconcat, lastCloseD_concat]
    have hp : prevCloseD (l ++ [b1, b2]) = b1.close := prevCloseD_concat2 l b1 b2
    have hu : lastUpdateOf (l ++ [b1, b2]) now = b2.ts := by
      rw [hconcat, lastUpdateOf_concat]
    rw [hc, hp, hu]
    by_cases hz : b1.close = 0 <;> simp [hz]
  · have hlen : ¬ 2 ≤ ([b] : List Bar).length := by simp
    rw [computeSnapshot, if_neg hlen]
    simp [lastCloseD, lastUpdateOf]

/-- Claim C2, counterexample.  When retrieval yields an empty series
the symbol is dropped from the result set entirely: no zero-valued
snapshot for it appears in the results, contradicting the claim that
the empty series flows through as a snapshot in the result set. -/
theorem C2_empty_not_in_results_cex :
    ¬ ∃ snap : Snapshot,
      ("AAPL", snap) ∈
        (getStockData (fun _ => FetchOutcome.history []) ["AAPL"] 0).1 := by
  simp [getStockData]

/-- Claim C2, amended.  The snapshot arithmetic itself, applied to an
empty series, returns all-zero numeric fields with the last update
defaulting to the computation time and never raises; but in the batch
an empty series does not flow through as a snapshot: the symbol is
omitted from the result set and contributes only the per-symbol
no-data annotation to the error list. -/
theorem C2_empty_series_amended (fetch : String → FetchOutcome)
    (symbols : List String) (s : String) (now : Int)
    (h : fetch s = FetchOutcome.history []) :
    computeSnapshot [] now =
      { currentPrice := 0, change := 0, changePct := 0, lastUpdate := now } ∧
    s ∉ (getStockData fetch symbols now).1.map Prod.fst ∧
    (s ∈ symbols →
      (s ++ ": No historical data available") ∈ (getStockData fetch symbols now).2) := by
  refine ⟨?_, ?_, ?_⟩
  · simp [computeSnapshot, lastCloseD, lastUpdateOf]
  · rw [getStockData_fst]
    simp [List.mem_filter, h, FetchOutcome.ok]
  · intro hmem
    rw [getStockData_snd]
    refine List.mem_map.mpr ⟨s, ?_, ?_⟩
    · exact List.mem_filter.mpr ⟨hmem, by simp [h, FetchOutcome.ok]⟩
    · simp [errorLine, h]

/-- Claim C2, witness: one symbol whose fetch returns an empty
frame. -/
theorem C2_empty_series_amended_witness :
    computeSnapshot [] 0 =
      { currentPrice := 0, change := 0, changePct := 0, lastUpdate := 0 } ∧
    ("AAPL" ++ ": No historical data available") ∈
      (getStockData (fun _ => FetchOutcome.history []) ["AAPL"] 0).2 := by
  have h := C2_empty_series_amended (fun _ => FetchOutcome.history [])
    ["AAPL"] ("AAPL") 0 rfl
  exact ⟨h.1, h.2.2 (by simp)⟩

/-- Claim C3.  Normalization maps bar i to the pair of its timestamp
and its close divided by the first close, minus one, times 100, in
input order with matching length; a series whose first close is zero
is excluded entirely; empty input yields empty output; and the first
output value of every included series is exactly zero. -/
theorem C3_normalization (b0 z : Bar) (rest zs : List Bar) (i : Nat)
    (hne : b0.close ≠ 0) (hz : z.close = 0) (hi : i < (b0 :: rest).length) :
    normalizeForComparison [] = [] ∧
    normalizeForComparison (z :: zs) = [] ∧
    (normalizeForComparison (b0 :: rest)).length = (b0 :: rest).length ∧
    (normalizeForComparison (b0 :: rest)).get? i =
      some (((b0 :: rest).get ⟨i, hi⟩).ts,
        (((b0 :: rest).get ⟨i, hi⟩).close / b0.close - 1) * 100) ∧
    (normalizeForComparison (b0 :: rest)).head? = some (b0.ts, 0) := by
  refine ⟨rfl, ?_, ?_, ?_, ?_⟩
  · simp [normalizeForComparison, hz]
  · simp [normalizeForComparison, hne]
  · rw [normalizeForComparison, if_neg hne, List.get?_map,
      List.get?_eq_get hi]
    rfl
  · rw [normalizeForComparison, if_neg hne]
    simp [div_self hne]

/-- Claim C3, witness: a two-bar series based at close 4, a zero-based
series, and index 1. -/
theorem C3_normalization_witness :
    (Bar.mk 0 4 0).close ≠ 0 ∧ (Bar.mk 0 0 0).close = 0 ∧
    normalizeForComparison [Bar.mk 0 4 0, Bar.mk 1 6 0] =
      [(0, 0), (1, 50)] := by
  have h := C3_normalization (Bar.mk 0 4 0) (Bar.mk 0 0 0) [Bar.mk 1 6 0] []
    1 (by norm_num) rfl (by norm_num)
  refine ⟨by norm_num, rfl, ?_⟩
  have h4 := h.2.2.2.1
  have h5 := h.2.2.2.2
  norm_num [normalizeForComparison]

/-- Claim C4.  The classifier returns Open when the date of the last
bar is today, ClosedRecent when the gap is between one and three days
inclusive, ClosedStale when the gap exceeds three days, NoData with
fewer than two bars, and Unknown when the upstream fetch failed. -/
theorem C4_market_status (l short : List Int) (d0 dL tR tS t : Int)
    (hR : 1 ≤ tR - dL ∧ tR - dL ≤ 3) (hS : 3 < tS - dL)
    (hshort : short.length < 2) :
    get_market_status none t = MarketStatus.Unknown ∧
    get_market_status (some short) t = MarketStatus.NoData ∧
    get_market_status (some (l ++ [d0, dL])) dL = MarketStatus.Open ∧
    get_market_status (some (l ++ [d0, dL])) tR = MarketStatus.ClosedRecent ∧
    get_market_status (some (l ++ [d0, dL])) tS = MarketStatus.ClosedStale := by
  have hsplit : l ++ [d0, dL] = (l ++ [d0]) ++ [dL] := by simp
  have hlast : ((l ++ [d0, dL]).getLast?).getD 0 = dL := by
    rw [hsplit, List.getLast?_concat]
    rfl
  have hlen : 2 ≤ (l ++ [d0, dL]).length := by
    simp [List.length_append]
  have hsome : ∀ today : Int,
      get_market_status (some (l ++ [d0, dL])) today =
        if dL = today then MarketStatus.Open
        else if today - dL ≤ 3 then MarketStatus.ClosedRecent
        else MarketStatus.ClosedStale := by
    intro today
    simp only [get_market_status, hlast]
    rw [if_pos hlen]
  refine ⟨rfl, ?_, ?_, ?_, ?_⟩
  · simp only [get_market_status]
    rw [if_neg (by omega)]
  · rw [hsome, if_pos rfl]
  · rw [hsome, if_neg (by omega), if_pos (by omega)]
  · rw [hsome, if_neg (by omega), if_neg (by omega)]

/-- Claim C4, witness: two bars ending on day 10, probed on days 10,
11 and 20; an empty probe series; a failed fetch. -/
theorem C4_market_status_witness :
    (1 ≤ (11 : Int) - 10 ∧ (11 : Int) - 10 ≤ 3) ∧ (3 : Int) < 20 - 10 ∧
    ([] : List Int).length < 2 ∧
    get_market_status (some [9, 10]) 10 = MarketStatus.Open ∧
    get_market_status (some [9, 10]) 11 = MarketStatus.ClosedRecent ∧
    get_market_status (some [9, 10]) 20 = MarketStatus.ClosedStale ∧
    get_market_status (some []) 10 = MarketStatus.NoData ∧
    get_market_status none 10 = MarketStatus.Unknown := by
  have h := C4_market_status [] [] 9 10 11 20 10 (by omega) (by omega)
    (by decide)
  exact ⟨⟨by omega, by omega⟩, by omega, by decide,
    h.2.2.1, h.2.2.2.1, h.2.2.2.2, h.2.1, h.1⟩

/-- Claim C5, counterexample.  A two-bar series has exactly one
return, so the pandas std yields NaN, no numeric value, not the zero
the claim demands: the volatility of the code disagrees with the one
of the spec at this input. -/
theorem C5_short_series_cex :
    volatility [Bar.mk 0 100 1000, Bar.mk 1 105 1500] = none ∧
    specVolatility [Bar.mk 0 100 1000, Bar.mk 1 105 1500] = 0 ∧
    volatility [Bar.mk 0 100 1000, Bar.mk 1 105 1500] ≠
      some (specVolatility [Bar.mk 0 100 1000, Bar.mk 1 105 1500]) := by
  refine ⟨?_, ?_, ?_⟩ <;> simp [volatility, specVolatility, seriesStd, pctChange]

/-- Claim C5, amended.  With at least two returns the volatility of
the code is the sample standard deviation of the day-over-day returns
over consecutive pairs, there are len minus one of them, pointwise as
claimed, and it agrees with the definition of the spec; with fewer
than two returns it is NaN, modelled as none, not zero. -/
theorem C5_volatility_amended (bars short : List Bar) (i : Nat)
    (h2 : 2 ≤ (pctChange (bars.map Bar.close)).length)
    (hs : (pctChange (short.map Bar.close)).length < 2)
    (hi : i + 1 < bars.length) :
    volatility bars = some (specVolatility bars) ∧
    specVolatility bars =
      Real.sqrt ((sampleVar (pctChange (bars.map Bar.close)) : ℚ) : ℝ) ∧
    (pctChange (bars.map Bar.close)).length = bars.length - 1 ∧
    (pctChange (bars.map Bar.close)).get? i =
      some ((bars.map Bar.close).getD (i + 1) 0 /
        (bars.map Bar.close).getD i 0 - 1) ∧
    volatility short = none := by
  refine ⟨?_, ?_, ?_, ?_, ?_⟩
  · simp [volatility, seriesStd, specVolatility, h2, Nat.not_lt.mpr h2]
  · simp [specVolatility, Nat.not_lt.mpr h2]
  · simp only [pctChange, List.length_map, List.length_zip, List.length_tail]
    omega
  · exact pctChange_get (bars.map Bar.close) i (by simpa using hi)
  · have hn : ¬ 2 ≤ (pctChange (short.map Bar.close)).length := by omega
    simp [volatility, seriesStd, hn]

/-- Claim C5, witness: a three-bar geometric series with two equal
returns and zero dispersion, and a one-bar series with no returns. -/
theorem C5_volatility_amended_witness :
    2 ≤ (pctChange ([Bar.mk 0 1 0, Bar.mk 1 2 0, Bar.mk 2 4 0].map Bar.close)).length ∧
    (pctChange ([Bar.mk 0 100 0].map Bar.close)).length < 2 ∧
    volatility [Bar.mk 0 1 0, Bar.mk 1 2 0, Bar.mk 2 4 0] = some 0 ∧
    volatility [Bar.mk 0 100 0] = none := by
  have h := C5_volatility_amended [Bar.mk 0 1 0, Bar.mk 1 2 0, Bar.mk 2 4 0]
    [Bar.mk 0 100 0] 0 (by simp [pctChange]) (by simp [pctChange]) (by norm_num)
  refine ⟨by simp [pctChange], by simp [pctChange], ?_, h.2.2.2.2⟩
  rw [h.1, h.2.1]
  norm_num [pctChange, sampleVar, listMean]

/-- Claim C6.  For a non-empty series the thirty-day average volume is
the mean of the volumes of the last min(30, len) bars, the latest
volume is the volume of the last bar, the ratio is latest over average
when the average is positive and zero otherwise; on volumes 1000 and
1500 the ratio is 1500 over 1250, that is six fifths. -/
theorem C6_volume_stats (bars zbars l : List Bar) (b : Bar)
    (hne : bars ≠ []) (hpos : 0 < avgVolume30 bars)
    (hz : avgVolume30 zbars ≤ 0) :
    avgVolume30 bars =
      ((bars.map Bar.volume).reverse.take 30).sum /
        ((min 30 bars.length : Nat) : ℚ) ∧
    latestVolume (l ++ [b]) = b.volume ∧
    volumeRatioOf bars = latestVolume bars / avgVolume30 bars ∧
    volumeRatioOf zbars = 0 ∧
    volumeRatioOf [Bar.mk 0 100 1000, Bar.mk 1 105 1500] = 6 / 5 := by
  refine ⟨?_, ?_, ?_, ?_, ?_⟩
  · rw [avgVolume30, listMean, tail30_sum, tail30_length, List.length_map]
  · simp [latestVolume]
  · rw [volumeRatioOf, if_pos hpos]
  · rw [volumeRatioOf, if_neg (by exact not_lt.mpr hz)]
  · norm_num [volumeRatioOf, avgVolume30, latestVolume, tail30, listMean]

/-- Claim C6, witness: the two-bar scenario with volumes 1000 and
1500, and the empty series for the zero branch. -/
theorem C6_volume_stats_witness :
    ([Bar.mk 0 100 1000, Bar.mk 1 105 1500] : List Bar) ≠ [] ∧
    0 < avgVolume30 [Bar.mk 0 100 1000, Bar.mk 1 105 1500] ∧
    avgVolume30 ([] : List Bar) ≤ 0 ∧
    volumeRatioOf [Bar.mk 0 100 1000, Bar.mk 1 105 1500] = 6 / 5 := by
  have h := C6_volume_stats [Bar.mk 0 100 1000, Bar.mk 1 105 1500] [] []
    (Bar.mk 1 105 1500) (by simp)
    (by norm_num [avgVolume30, tail30, listMean])
    (by norm_num [avgVolume30, tail30, listMean])
  exact ⟨by simp, by norm_num [avgVolume30, tail30, listMean],
    by norm_num [avgVolume30, tail30, listMean], h.2.2.2.2⟩

/-- Claim C7.  The batch returns the pair of results and errors where
the results are exactly the snapshots of the symbols whose fetch
succeeded with a non-empty frame, in input order and each computed
exactly as it would be for that symbol alone, and the errors are
exactly the per-symbol message lines of the remaining symbols,
collected in a separate list; in particular no failure of one symbol
removes or alters the entry of any other. -/
theorem C7_batch_isolation (fetch : String → FetchOutcome)
    (symbols : List String) (now : Int) (s t : String)
    (hs : (fetch s).ok = true) (ht : (fetch t).ok = false) :
    (getStockData fetch symbols now).1 =
      (symbols.filter fun u => (fetch u).ok).map
        (fun u => (u, computeSnapshot (fetch u).bars now)) ∧
    (getStockData fetch symbols now).2 =
      (symbols.filter fun u => !(fetch u).ok).map
        (fun u => errorLine u (fetch u)) ∧
    (getStockData fetch [s] now).1 = [(s, computeSnapshot (fetch s).bars now)] ∧
    (getStockData fetch [t] now).1 = [] ∧
    (getStockData fetch [t] now).2 = [errorLine t (fetch t)] := by
  refine ⟨getStockData_fst fetch symbols now, getStockData_snd fetch symbols now,
    ?_, ?_, ?_⟩
  · rw [getStockData_fst]
    simp [hs]
  · rw [getStockData_fst]
    simp [ht]
  · rw [getStockData_snd]
    simp [ht]

/-- Claim C7, witness: a two-symbol batch where one fetch fails. -/
theorem C7_batch_isolation_witness :
    ((fun u => if u = "AAPL" then FetchOutcome.history [Bar.mk 0 10 1, Bar.mk 1 11 2]
        else FetchOutcome.failure ("timeout")) ("AAPL")).ok = true ∧
    ((fun u => if u = "AAPL" then FetchOutcome.history [Bar.mk 0 10 1, Bar.mk 1 11 2]
        else FetchOutcome.failure ("timeout")) ("MSFT")).ok = false ∧
    (getStockData
        (fun u => if u = "AAPL" then FetchOutcome.history [Bar.mk 0 10 1, Bar.mk 1 11 2]
          else FetchOutcome.failure ("timeout"))
        ["MSFT"] 0).2 = ["MSFT: timeout"] := by
  have h := C7_batch_isolation
    (fun u => if u = "AAPL" then FetchOutcome.history [Bar.mk 0 10 1, Bar.mk 1 11 2]
      else FetchOutcome.failure ("timeout"))
    ["AAPL", "MSFT"] 0 ("AAPL") ("MSFT") (by decide) (by decide)
  refine ⟨by decide, by decide, ?_⟩
  have h2 := h.2.2.2.2
  simpa [errorLine] using h2

/-- Claim C8, counterexample.  On the empty series the index
computation produces no snapshot at all, only an error line, so no
index snapshot exists whose value matches the zero current price of
computeSnapshot: the claimed field equality fails at the empty edge
case. -/
theorem C8_empty_index_cex :
    ¬ ∃ ix : IndexSnapshot,
      computeIndexSnapshot [] = some ix ∧
        ix.value = (computeSnapshot [] 0).currentPrice := by
  simp [computeIndexSnapshot]

/-- Claim C8, amended.  For every non-empty series the index snapshot
exists and its value, change, percent change and last update equal the
corresponding computeSnapshot fields, one-bar and two-or-more-bar
cases alike; only the empty edge case diverges, where the index
computation yields no snapshot. -/
theorem C8_index_refines_snapshot (b : Bar) (rest : List Bar) (now : Int) :
    computeIndexSnapshot (b :: rest) =
      some { value := (computeSnapshot (b :: rest) now).currentPrice
             change := (computeSnapshot (b :: rest) now).change
             changePct := (computeSnapshot (b :: rest) now).changePct
             lastUpdate := (computeSnapshot (b :: rest) now).lastUpdate } := by
  cases rest with
  | nil =>
    simp [computeIndexSnapshot, computeSnapshot, lastUpdateOf]
  | cons b2 rest2 =>
    obtain ⟨x, hx⟩ := Option.isSome_iff_exists.mp
      (List.getLast?_isSome.mpr (by simp : (b :: b2 :: rest2) ≠ ([] : List Bar)))
    have h2 : 2 ≤ (b :: b2 :: rest2).length := by
      simp only [List.length_cons]
      omega
    simp [computeIndexSnapshot, computeSnapshot, h2, lastUpdateOf, hx]

/-- Claim C9, counterexample.  On one and the same probe series the
classification changes with the day of the run: Open on day 5,
ClosedStale on day 15.  Since get_market_status in the script takes no
timestamp parameter and obtains the day from the system clock inside
the function, line 237, its output on equal inputs varies with the
ambient wall clock, refuting the claim that no operation reads an
implicit global clock and that the current time is explicitly
passed. -/
theorem C9_clock_dependence_cex :
    get_market_status (some [0, 5]) 5 = MarketStatus.Open ∧
    get_market_status (some [0, 5]) 15 = MarketStatus.ClosedStale ∧
    MarketStatus.Open ≠ MarketStatus.ClosedStale := by
  refine ⟨by decide, by decide, by decide⟩

/-- Claim C9, amended.  Each engine operation is a deterministic
function of its input series and the clock reading: equal series and
equal reading give equal snapshot, normalization and classification
results, and the classification reads nothing of the probe series
beyond its length and its last date; the reading itself, however, is
obtained inside get_market_status, and inside the empty-series
fallback of get_stock_data, from the system clock, not from an
explicit parameter. -/
theorem C9_determinism (probe probe2 : Option (List Int)) (t t2 : Int)
    (bars bars2 : List Bar) (n n2 : Int) (ds ds2 : List Int)
    (hp : probe = probe2) (ht : t = t2) (hb : bars = bars2) (hn : n = n2)
    (hlen : ds.length = ds2.length) (hlast : ds.getLast? = ds2.getLast?) :
    get_market_status probe t = get_market_status probe2 t2 ∧
    computeSnapshot bars n = computeSnapshot bars2 n2 ∧
    normalizeForComparison bars = normalizeForComparison bars2 ∧
    get_market_status (some ds) t = get_market_status (some ds2) t := by
  subst hp ht hb hn
  refine ⟨rfl, rfl, rfl, ?_⟩
  simp only [get_market_status, hlen, hlast]

/-- Claim C9, witness: probes of equal length ending on the same
date. -/
theorem C9_determinism_witness :
    ([3, 7] : List Int).length = ([4, 7] : List Int).length ∧
    ([3, 7] : List Int).getLast? = ([4, 7] : List Int).getLast? ∧
    get_market_status (some [3, 7]) 8 = get_market_status (some [4, 7]) 8 := by
  have h := C9_determinism (some [1]) (some [1]) 0 0 [] [] 0 0 [3, 7] [4, 7]
    rfl rfl rfl rfl (by decide) (by decide)
  exact ⟨by decide, by decide, h.2.2.2⟩

/-- Claim C10.  A query shorter than two characters returns the empty
list; every other query returns at most one result, because the loop
breaks at the first symbol variant with valid metadata, a hit on the
first variant ends the search, so the final slice to five entries
never truncates anything. -/
theorem C10_search_caps (fetchInfo : String → Option TickerInfo)
    (query short exchange s : String) (rest : List String) (r : SearchResult)
    (hshort : short.length < 2) (hr : validResult fetchInfo s = some r) :
    search_stocks fetchInfo short exchange = [] ∧
    (search_stocks fetchInfo query exchange).length ≤ 1 ∧
    firstValid fetchInfo (s :: rest) = [r] := by
  refine ⟨by simp [search_stocks, hshort], ?_, by simp [firstValid, hr]⟩
  by_cases h : query.length < 2
  · simp [search_stocks, h]
  · rw [search_stocks, if_neg h]
    have h1 := firstValid_length_le_one fetchInfo (testSymbols query exchange)
    simp only [List.length_take]
    omega

/-- Claim C10, witness: a one-character query, a query hitting a valid
info dictionary on its first variant, and a fetch that always
fails. -/
theorem C10_search_caps_witness :
    ("A" : String).length < 2 ∧
    validResult
      (fun u => if u = "AAPL" then
          some (TickerInfo.mk [("longName", "Apple Inc."), ("sector", "Technology"),
            ("currency", "USD"), ("exchange", "NMS")])
        else none) ("AAPL") =
      some (SearchResult.mk ("AAPL") ("Apple Inc.") ("Technology") ("USD")) ∧
    search_stocks (fun _ => (none : Option TickerInfo)) ("A") ("🇺🇸 US Markets") = [] ∧
    (search_stocks
      (fun u => if u = "AAPL" then
          some (TickerInfo.mk [("longName", "Apple Inc."), ("sector", "Technology"),
            ("currency", "USD"), ("exchange", "NMS")])
        else none) ("AAPL") ("🇺🇸 US Markets")).length ≤ 1 := by
  have h := C10_search_caps
    (fun u => if u = "AAPL" then
        some (TickerInfo.mk [("longName", "Apple Inc."), ("sector", "Technology"),
          ("currency", "USD"), ("exchange", "NMS")])
      else none)
    ("AAPL") ("A") ("🇺🇸 US Markets") ("AAPL") []
    (SearchResult.mk ("AAPL") ("Apple Inc.") ("Technology") ("USD"))
    (by decide) (by decide)
  exact ⟨by decide, by decide, rfl, h.2.1⟩

end EconDash
